import Mathlib

/-!
Verification of the `robust_shared_mutex` crate: a shallow embedding of the
PI-futex mutex (`src/mutex.rs`), the requeue-PI condition variable
(`src/condvar.rs`), the robust-list registration (`src/futex.rs`) and the
shared-memory wrapper (`src/shared_data.rs`), together with theorems settling
the specification claims.

Modelling conventions:
* The 32-bit futex word is a `Nat` (all transitions stay below `2^32`).
* Kernel syscalls are oracles: each `FUTEX_LOCK_PI` / `FUTEX_WAIT_REQUEUE_PI`
  invocation consumes a `KOutcome`/`WOutcome` describing what the kernel did
  (granted the lock, with which advisory bits set in the word, or an errno).
  On a successful PI acquisition the kernel writes the caller's tid into the
  word, preserving `FUTEX_OWNER_DIED` when the previous owner died and
  `FUTEX_WAITERS` when other waiters remain (the documented PI-futex ABI).
* The calling thread's robust list is the list of node addresses reachable
  from its robust-list head, front first; `robust_add` / `robust_remove`
  mirror the front insertion and walk-and-splice of `src/futex.rs`.
* Each operation also returns its trace of externally visible actions
  (`Ev`), so ordering claims (unlink before CAS, snapshot before release
  before suspension) are statable.
-/

namespace RobustSharedMutex

/-- Kernel constant `FUTEX_OWNER_DIED` (high advisory bit, `0x40000000`). -/
def FUTEX_OWNER_DIED : Nat := 0x40000000

/-- Kernel constant `FUTEX_WAITERS` (`0x80000000`), set by the kernel on contention. -/
def FUTEX_WAITERS : Nat := 0x80000000

/-- Kernel constant `FUTEX_TID_MASK` (`0x3fffffff`): the tid bits of the word. -/
def FUTEX_TID_MASK : Nat := 0x3fffffff

/-- errno `ETIMEDOUT`. -/
def ETIMEDOUT : Nat := 110

/-- errno `EINTR`. -/
def EINTR : Nat := 4

/-- `2^32`, the modulus of the 32-bit generation counter. -/
def U32 : Nat := 4294967296

/-- The `io::Error` values the crate produces, keyed by `io::ErrorKind` for the
two kinds it matches on explicitly and by raw errno otherwise. -/
inductive IoErr where
  | timedOut
  | interrupted
  | os (errno : Nat)
deriving DecidableEq, Repr

/-- Rust's `io::Error::from(errno)` / `e.into()`, restricted to the kinds this
crate can observe: `EINTR` has kind `Interrupted`, `ETIMEDOUT` kind `TimedOut`,
anything else is carried as a raw os error. -/
def ioErrOfErrno (e : Nat) : IoErr :=
  if e = EINTR then IoErr.interrupted
  else if e = ETIMEDOUT then IoErr.timedOut
  else IoErr.os e

/-- Oracle for one `FUTEX_LOCK_PI` invocation: either the kernel granted the
lock (recording which advisory bits it left in the word) or it failed with an
errno. -/
inductive KOutcome where
  | ok (ownerDied waiters : Bool)
  | err (errno : Nat)
deriving DecidableEq, Repr

/-- State of one `AosMutex` as seen by the calling thread: the 32-bit futex
word, the address of the mutex's robust-list node (`&mutex.next`), and the
calling thread's robust list (node addresses, front first). -/
structure MState where
  futex : Nat
  node : Nat
  robust : List Nat
deriving DecidableEq, Repr

/-- Externally visible actions, in program order. -/
inductive Ev where
  | casAcquire (success : Bool)
  | robustAdd (node : Nat)
  | robustRemove (node : Nat)
  | lockPiCall
  | unlockPiCall
  | casRelease (success : Bool)
  | clearOwnerDied
  | loadGen (v : Nat)
  | waitRequeuePiCall (expected : Nat)
deriving DecidableEq, Repr

/-- `futex::robust_add`: push the node at the front of the thread's robust list. -/
def robust_add (st : MState) : MState :=
  { st with robust := st.node :: st.robust }

/-- `futex::robust_remove`: walk from the head and splice out the first
occurrence of the node. -/
def robust_remove (st : MState) : MState :=
  { st with robust := st.robust.erase st.node }

/-- The word the kernel writes on a successful `FUTEX_LOCK_PI`: the caller's
tid, with `FUTEX_OWNER_DIED` preserved when the previous owner died and
`FUTEX_WAITERS` when waiters remain queued. -/
def lockPiNewWord (me : Nat) (ownerDied waiters : Bool) : Nat :=
  me ||| (if ownerDied then FUTEX_OWNER_DIED else 0)
     ||| (if waiters then FUTEX_WAITERS else 0)

/-- `fetch_and(!FUTEX_OWNER_DIED)`: `!0x40000000` over `u32` is `0xBFFFFFFF`. -/
def clearOwnerDiedWord (w : Nat) : Nat := w &&& 0xBFFFFFFF

/-- The slow-path loop of `PiMutex::lock_inner`: repeatedly invoke
`FUTEX_LOCK_PI`, consuming one oracle entry per invocation.  On success the
kernel has written the caller's tid; the code then clears `FUTEX_OWNER_DIED`
if set and adds the node to the robust list.  `ETIMEDOUT` maps to the
`TimedOut` error; `EINTR` is retried unless `signalsFail`; every other errno
is converted by `e.into()`.  `none` means the oracle ran out while the loop
was still retrying. -/
def lockPiLoop (me : Nat) (signalsFail : Bool) (st : MState) :
    List KOutcome → Option (Except IoErr Unit × MState × List Ev)
  | [] => none
  | KOutcome.ok d w :: _ =>
      let w1 := lockPiNewWord me d w
      let w2 := if w1 &&& FUTEX_OWNER_DIED ≠ 0 then clearOwnerDiedWord w1 else w1
      let evc : List Ev :=
        if w1 &&& FUTEX_OWNER_DIED ≠ 0 then [Ev.clearOwnerDied] else []
      some (Except.ok (), robust_add { st with futex := w2 },
            Ev.lockPiCall :: (evc ++ [Ev.robustAdd st.node]))
  | KOutcome.err e :: rest =>
      if e = EINTR ∧ ¬ signalsFail then
        (lockPiLoop me signalsFail st rest).map
          (fun r => (r.1, r.2.1, Ev.lockPiCall :: r.2.2))
      else if e = ETIMEDOUT then
        some (Except.error IoErr.timedOut, st, [Ev.lockPiCall])
      else
        some (Except.error (ioErrOfErrno e), st, [Ev.lockPiCall])

/-- `PiMutex::lock_inner`: fast-path CAS of the word from `0` to the caller's
tid (adding to the robust list on success), otherwise the `lock_pi` slow
path. -/
def lockInner (me : Nat) (signalsFail : Bool) (st : MState)
    (oracle : List KOutcome) : Option (Except IoErr Unit × MState × List Ev) :=
  if st.futex = 0 then
    some (Except.ok (), robust_add { st with futex := me },
          [Ev.casAcquire true, Ev.robustAdd st.node])
  else
    (lockPiLoop me signalsFail st oracle).map
      (fun r => (r.1, r.2.1, Ev.casAcquire false :: r.2.2))

/-- `PiMutex::unlock`: remove the node from the robust list first, then CAS
the word from the caller's tid to `0` (release); only if that CAS fails invoke
`FUTEX_UNLOCK_PI` (whose effect on the word is the oracle `unlockPiWord`). -/
def unlock (me : Nat) (st : MState) (unlockPiWord : Nat) : MState × List Ev :=
  let st1 := robust_remove st
  if st1.futex = me then
    ({ st1 with futex := 0 }, [Ev.robustRemove st.node, Ev.casRelease true])
  else
    ({ st1 with futex := unlockPiWord },
     [Ev.robustRemove st.node, Ev.casRelease false, Ev.unlockPiCall])

/-- `impl Drop for PiMutexGuard`: calls `unlock_pi` directly — no robust-list
removal and no release CAS. -/
def piMutexGuardDrop (st : MState) (unlockPiWord : Nat) : MState × List Ev :=
  ({ st with futex := unlockPiWord }, [Ev.unlockPiCall])

/-- `mutex::lock_try`: CAS the word from `0` to the caller's tid; on failure,
if the observed value has `FUTEX_OWNER_DIED` set, escalate to `FUTEX_LOCK_PI`
(one oracle entry) and report acquired; otherwise report not acquired. -/
def lock_try (me : Nat) (st : MState) (k : KOutcome) :
    Except IoErr (Bool × MState) × List Ev :=
  if st.futex = 0 then
    (Except.ok (true, { st with futex := me }), [Ev.casAcquire true])
  else if st.futex &&& FUTEX_OWNER_DIED ≠ 0 then
    match k with
    | KOutcome.ok d w =>
        (Except.ok (true, { st with futex := lockPiNewWord me d w }),
         [Ev.casAcquire false, Ev.lockPiCall])
    | KOutcome.err e =>
        (Except.error (ioErrOfErrno e), [Ev.casAcquire false, Ev.lockPiCall])
  else
    (Except.ok (false, st), [Ev.casAcquire false])

/-- `PiMutex::try_lock`: wrap `lock_try`'s boolean into `Some guard` / `None`
(the guard is represented by the mutex state it governs). -/
def try_lock (me : Nat) (st : MState) (k : KOutcome) :
    Except IoErr (Option MState) × List Ev :=
  match lock_try me st k with
  | (Except.ok (true, st'), evs) => (Except.ok (some st'), evs)
  | (Except.ok (false, _), evs) => (Except.ok none, evs)
  | (Except.error e, evs) => (Except.error e, evs)

/-- `PiMutex::is_locked_by_me`, exactly as written in the source:
`tid() as u32 & FUTEX_TID_MASK == self.0.futex.load(Relaxed)` — the caller's
tid is masked, the futex word is not. -/
def is_locked_by_me (me word : Nat) : Bool :=
  (me &&& FUTEX_TID_MASK) == word

/-- The predicate as the specification words it (§4.4: "compares the word's
tid bits to the caller's tid"; §9: "Reimplementation should mask"): the tid
bits of the word — `word & FUTEX_TID_MASK` — equal the caller's tid.  Kept
only to be compared against `is_locked_by_me`. -/
def is_locked_by_me_spec (me word : Nat) : Bool :=
  (word &&& FUTEX_TID_MASK) == me

/-- State of a `SharedMutexInner<T>` cell: the mutex, the `init` flag, and the
payload (`T` modelled as a `Nat`). -/
structure SharedState where
  m : MState
  init : Bool
  data : Nat
deriving DecidableEq, Repr

/-- Result of `SharedMutexInner::lock`: both variants carry a `SharedGuard`,
modelled by the shared cell it grants access to. -/
inductive SharedLockRes where
  | okGuard (s : SharedState)
  | errGuard (s : SharedState)
deriving DecidableEq, Repr

/-- `SharedMutexInner::lock`: `self.futex.lock_inner(None, true)`; `Ok(())`
maps to `Ok(SharedGuard)`, any error maps to `Err(SharedGuard)` (the error
value itself is discarded by the source). -/
def sharedLock (me : Nat) (s : SharedState) (oracle : List KOutcome) :
    Option SharedLockRes :=
  match lockInner me true s.m oracle with
  | none => none
  | some (Except.ok _, st', _) => some (SharedLockRes.okGuard { s with m := st' })
  | some (Except.error _, st', _) => some (SharedLockRes.errGuard { s with m := st' })

/-- Result of `SharedMutexInner::try_lock`. -/
inductive SharedTryRes where
  | okSome (s : SharedState)
  | okNone (s : SharedState)
  | errGuard (s : SharedState)
deriving DecidableEq, Repr

/-- `SharedMutexInner::try_lock`: `lock_try` on the inner futex; `Ok(true)`
maps to `Ok(Some(guard))`, `Ok(false)` to `Ok(None)`, any error to
`Err(SharedGuard)`. -/
def sharedTryLock (me : Nat) (s : SharedState) (k : KOutcome) : SharedTryRes :=
  match lock_try me s.m k with
  | (Except.ok (true, st'), _) => SharedTryRes.okSome { s with m := st' }
  | (Except.ok (false, st'), _) => SharedTryRes.okNone { s with m := st' }
  | (Except.error _, _) => SharedTryRes.errGuard s

/-- `SharedGuard`'s `DerefMut`: writing the payload through the guard. -/
def sharedGuardSet (s : SharedState) (v : Nat) : SharedState :=
  { s with data := v }

/-- `SharedGuard`'s `Deref`: reading the payload through the guard. -/
def sharedGuardGet (s : SharedState) : Nat := s.data

/-- `impl Drop for SharedGuard`: calls `self.futex.unlock()`, i.e. the full
robust-unlink / release-CAS / `unlock_pi` sequence of `PiMutex::unlock`. -/
def sharedGuardDrop (me : Nat) (s : SharedState) (unlockPiWord : Nat) :
    SharedState × List Ev :=
  let r := unlock me s.m unlockPiWord
  ({ s with m := r.1 }, r.2)

/-- Oracle for one `FUTEX_WAIT_REQUEUE_PI` invocation: either the kernel woke
the caller after requeueing it onto the mutex and handing it ownership
(recording the advisory bits of the word at that point), or an errno. -/
inductive WOutcome where
  | ok (ownerDied waiters : Bool)
  | err (errno : Nat)
deriving DecidableEq, Repr

/-- State of a `PiCondvar` together with its associated mutex. -/
structure CvState where
  gen : Nat
  m : MState
deriving DecidableEq, Repr

/-- `PiCondvar::wait_inner`: snapshot the generation word (SeqCst load), drop
the guard — `PiMutexGuard::drop`, which releases the mutex by calling
`unlock_pi` only, after which the word is the oracle `afterReleaseWord` —
then invoke `FUTEX_WAIT_REQUEUE_PI` with the snapshot as expected value.  On
success the kernel has requeued the caller onto the mutex and handed it
ownership (tid written into the word); the code clears `FUTEX_OWNER_DIED` if
set and returns a fresh guard.  `ETIMEDOUT` maps to `TimedOut`, `EINTR` to
`Interrupted`, anything else to `e.into()`; no guard is returned on error. -/
def wait_inner (me : Nat) (cv : CvState) (afterReleaseWord : Nat)
    (w : WOutcome) : Except IoErr Unit × CvState × List Ev :=
  let start := cv.gen
  let m1 : MState := { cv.m with futex := afterReleaseWord }
  let ev0 := [Ev.loadGen start, Ev.unlockPiCall, Ev.waitRequeuePiCall start]
  match w with
  | WOutcome.ok d wt =>
      let w1 := lockPiNewWord me d wt
      let w2 := if w1 &&& FUTEX_OWNER_DIED ≠ 0 then clearOwnerDiedWord w1 else w1
      let evc : List Ev :=
        if w1 &&& FUTEX_OWNER_DIED ≠ 0 then [Ev.clearOwnerDied] else []
      (Except.ok (), { cv with m := { m1 with futex := w2 } }, ev0 ++ evc)
  | WOutcome.err e =>
      if e = ETIMEDOUT then
        (Except.error IoErr.timedOut, { cv with m := m1 }, ev0)
      else if e = EINTR then
        (Except.error IoErr.interrupted, { cv with m := m1 }, ev0)
      else
        (Except.error (ioErrOfErrno e), { cv with m := m1 }, ev0)

/-- The arguments of one `FUTEX_CMP_REQUEUE_PI` invocation. -/
structure CmpRequeueCall where
  wakeN : Int
  requeueN : Int
  expected : Nat
deriving DecidableEq, Repr

/-- `PiCondvar::wake`: `fetch_add(1, SeqCst) + 1` on the generation word
(32-bit wrapping), then `cmp_requeue_pi(cv, 1, requeue, mutex, new_gen)`.
Returns the new generation value and the syscall arguments. -/
def condWake (gen : Nat) (requeue : Int) : Nat × CmpRequeueCall :=
  let newGen := (gen + 1) % U32
  (newGen, { wakeN := 1, requeueN := requeue, expected := newGen })

/-- `PiCondvar::notify_one`: `self.wake(m, 0)`. -/
def notify_one (gen : Nat) : Nat × CmpRequeueCall := condWake gen 0

/-- `PiCondvar::notify_all`: `self.wake(m, i32::MAX)`. -/
def notify_all (gen : Nat) : Nat × CmpRequeueCall := condWake gen 2147483647

/-- The robust-list head value (`RobustListHead`): `listNext` is the value of
`list.next` (an address, `0` = null), `futexOffset` the registered offset,
`listOpPending` the pending pointer (`0` = null). -/
structure RobustHead where
  listNext : Nat
  futexOffset : Int
  listOpPending : Nat
deriving DecidableEq, Repr

/-- Outcome of `ensure_registered`: the address handed to
`sys_set_robust_list`, the address at which the head value finally lives
(inside the thread-local `OnceCell`), and that final head value. -/
structure RegResult where
  kernelPtr : Nat
  headAddr : Nat
  head : RobustHead
deriving DecidableEq, Repr

/-- `offset_of!(AosMutex, futex) - offset_of!(AosMutex, next)` for the
`repr(C)` layout `{ futex: AtomicU32, next: usize, previous: usize }` on a
64-bit target: `0 - 8`. -/
def futexOffsetValue : Int := 0 - 8

/-- `futex::ensure_registered`, with addresses made explicit: the initializer
closure of `OnceCell::get_or_init` builds `head` in its own stack frame
(`stackAddr` is the address of `head.list` there), points `head.list.next` at
that stack location (`sentinel`), and calls `sys_set_robust_list` with that
stack address; `get_or_init` then moves the returned value into the
`OnceCell`'s storage at `cellAddr`, bit-copying `listNext` unchanged. -/
def ensure_registered (offset : Int) (stackAddr cellAddr : Nat) : RegResult :=
  let head0 : RobustHead :=
    { listNext := 0, futexOffset := offset, listOpPending := 0 }
  let sentinel := stackAddr
  let head1 := { head0 with listNext := sentinel }
  { kernelPtr := stackAddr, headAddr := cellAddr, head := head1 }

/-- The `OnceCell` discipline around `ensure_registered`: once a thread holds
a registration, later calls return it unchanged. -/
def ensure_registered_once (existing : Option RegResult) (offset : Int)
    (stackAddr cellAddr : Nat) : RegResult :=
  match existing with
  | some r => r
  | none => ensure_registered offset stackAddr cellAddr

/-- Forget the event trace of a `lockInner`/`lockPiLoop` outcome, keeping the
caller-visible result and final state. -/
def lockResult (x : Option (Except IoErr Unit × MState × List Ev)) :
    Option (Except IoErr Unit × MState) :=
  x.map (fun r => (r.1, r.2.1))

/-- Decidable equality for `Except` results (not provided by the library). -/
def exceptDecEq {w v : Type} [DecidableEq w] [DecidableEq v] :
    DecidableEq (Except w v) := fun a b =>
  match a, b with
  | Except.ok x, Except.ok y =>
      if h : x = y then Decidable.isTrue (by rw [h])
      else Decidable.isFalse (fun hc => h (Except.ok.inj hc))
  | Except.error x, Except.error y =>
      if h : x = y then Decidable.isTrue (by rw [h])
      else Decidable.isFalse (fun hc => h (Except.error.inj hc))
  | Except.ok _, Except.error _ => Decidable.isFalse (fun hc => Except.noConfusion hc)
  | Except.error _, Except.ok _ => Decidable.isFalse (fun hc => Except.noConfusion hc)

instance {w v : Type} [DecidableEq w] [DecidableEq v] : DecidableEq (Except w v) :=
  exceptDecEq

/-! ## Helper lemmas -/

lemma land_lor_right (a b c : Nat) : (a ||| b) &&& c = (a &&& c) ||| (b &&& c) := by
  apply Nat.eq_of_testBit_eq
  intro i
  simp only [Nat.testBit_lor, Nat.testBit_land]
  cases a.testBit i <;> cases b.testBit i <;> cases c.testBit i <;> rfl

lemma land_assoc2 (a b c : Nat) : a &&& b &&& c = a &&& (b &&& c) := by
  apply Nat.eq_of_testBit_eq
  intro i
  simp only [Nat.testBit_land]
  cases a.testBit i <;> cases b.testBit i <;> cases c.testBit i <;> rfl

/-- A value lying in the tid bits has no overlap with the advisory bits and is
untouched by the `OWNER_DIED`-clearing mask. -/
lemma tid_bits_facts (me : Nat) (hme : me &&& FUTEX_TID_MASK = me) :
    me &&& FUTEX_OWNER_DIED = 0 ∧ me &&& FUTEX_WAITERS = 0
      ∧ me &&& 0xBFFFFFFF = me := by
  have h1 : FUTEX_TID_MASK &&& FUTEX_OWNER_DIED = 0 := by decide
  have h2 : FUTEX_TID_MASK &&& FUTEX_WAITERS = 0 := by decide
  have h3 : FUTEX_TID_MASK &&& 0xBFFFFFFF = FUTEX_TID_MASK := by decide
  refine ⟨?_, ?_, ?_⟩
  · rw [← hme, land_assoc2, h1, Nat.and_zero]
  · rw [← hme, land_assoc2, h2, Nat.and_zero]
  · rw [← hme, land_assoc2, h3, hme]

/-- After a successful PI acquisition by `me` followed by the
`OWNER_DIED`-clearing step, the tid bits of the word are exactly `me`. -/
lemma acquired_word_tid (me : Nat) (d wt : Bool)
    (hme : me &&& FUTEX_TID_MASK = me) :
    (if lockPiNewWord me d wt &&& FUTEX_OWNER_DIED ≠ 0 then
        clearOwnerDiedWord (lockPiNewWord me d wt)
      else lockPiNewWord me d wt) &&& FUTEX_TID_MASK = me := by
  obtain ⟨hOD, hW, hNOT⟩ := tid_bits_facts me hme
  have c1 : FUTEX_OWNER_DIED &&& FUTEX_OWNER_DIED = FUTEX_OWNER_DIED := by decide
  have c2 : FUTEX_WAITERS &&& FUTEX_OWNER_DIED = 0 := by decide
  have c3 : FUTEX_OWNER_DIED &&& 0xBFFFFFFF = 0 := by decide
  have c4 : FUTEX_WAITERS &&& 0xBFFFFFFF = FUTEX_WAITERS := by decide
  have c5 : FUTEX_OWNER_DIED &&& FUTEX_TID_MASK = 0 := by decide
  have c6 : FUTEX_WAITERS &&& FUTEX_TID_MASK = 0 := by decide
  have c7 : FUTEX_OWNER_DIED ≠ 0 := by decide
  cases d <;> cases wt <;>
    simp only [lockPiNewWord, clearOwnerDiedWord, if_true, if_false,
      Bool.false_eq_true, ite_false, ite_true, Nat.or_zero,
      land_lor_right, hOD, hW, hNOT, c1, c2, c3, c4, c5, c6,
      Nat.zero_or, ne_eq, not_true_eq_false, not_false_eq_true] <;>
    simp [hOD, hW, hme, c7, land_lor_right, c5, c6, hNOT, c3, c4]

/-- An error result of the `lock_pi` slow-path loop leaves the mutex state
exactly as it was at loop entry: no robust-list entry, no futex change. -/
lemma lockPiLoop_error_state (me : Nat) (sf : Bool) (st : MState) :
    ∀ (oracle : List KOutcome) (e : IoErr) (st' : MState) (evs : List Ev),
      lockPiLoop me sf st oracle = some (Except.error e, st', evs) → st' = st := by
  intro oracle
  induction oracle with
  | nil => intro e st' evs h; simp [lockPiLoop] at h
  | cons o rest ih =>
      intro e st' evs h
      cases o with
      | ok d w => simp [lockPiLoop] at h
      | err e2 =>
          rw [lockPiLoop] at h
          by_cases h1 : e2 = EINTR ∧ ¬ sf
          · rw [if_pos h1] at h
            obtain ⟨⟨r1, st1, evs1⟩, hrec, heq⟩ := Option.map_eq_some'.mp h
            simp only [Prod.mk.injEq] at heq
            obtain ⟨he1, he2, -⟩ := heq
            subst he1; subst he2
            exact ih e _ evs1 hrec
          · rw [if_neg h1] at h
            by_cases h2 : e2 = ETIMEDOUT
            · rw [if_pos h2] at h
              simp only [Option.some.injEq, Prod.mk.injEq] at h
              exact h.2.1.symm
            · rw [if_neg h2] at h
              simp only [Option.some.injEq, Prod.mk.injEq] at h
              exact h.2.1.symm

/-- When no `ETIMEDOUT` outcome occurs in the oracle — in particular whenever
the caller passed no timeout, since the kernel only times out a timed
`FUTEX_LOCK_PI` — the loop never produces the `TimedOut` error. -/
lemma lockPiLoop_no_timeout (me : Nat) (sf : Bool) (st : MState) :
    ∀ (oracle : List KOutcome), KOutcome.err ETIMEDOUT ∉ oracle →
      ∀ (st' : MState) (evs : List Ev),
        lockPiLoop me sf st oracle
          ≠ some (Except.error IoErr.timedOut, st', evs) := by
  intro oracle
  induction oracle with
  | nil => intro _ st' evs h; simp [lockPiLoop] at h
  | cons o rest ih =>
      intro hmem st' evs h
      have hmem1 : o ≠ KOutcome.err ETIMEDOUT := by
        intro hx; exact hmem (hx ▸ List.mem_cons_self o rest)
      have hmem2 : KOutcome.err ETIMEDOUT ∉ rest := by
        intro hx; exact hmem (List.mem_cons_of_mem o hx)
      cases o with
      | ok d w => simp [lockPiLoop] at h
      | err e2 =>
          have he2 : e2 ≠ ETIMEDOUT := by
            intro hx; exact hmem1 (by rw [hx])
          rw [lockPiLoop] at h
          by_cases h1 : e2 = EINTR ∧ ¬ sf
          · rw [if_pos h1] at h
            obtain ⟨⟨r1, st1, evs1⟩, hrec, heq⟩ := Option.map_eq_some'.mp h
            simp only [Prod.mk.injEq] at heq
            obtain ⟨he1, hb, -⟩ := heq
            subst he1; subst hb
            exact ih hmem2 _ evs1 hrec
          · rw [if_neg h1, if_neg he2] at h
            simp only [Option.some.injEq, Prod.mk.injEq, Except.error.injEq] at h
            have : ioErrOfErrno e2 = IoErr.timedOut := h.1
            unfold ioErrOfErrno at this
            by_cases hi : e2 = EINTR
            · rw [if_pos hi] at this; exact IoErr.noConfusion this
            · rw [if_neg hi, if_neg he2] at this; exact IoErr.noConfusion this

/-- `lockInner` errors leave the state unchanged. -/
lemma lockInner_error_state (me : Nat) (sf : Bool) (st : MState)
    (oracle : List KOutcome) (e : IoErr) (st' : MState) (evs : List Ev)
    (h : lockInner me sf st oracle = some (Except.error e, st', evs)) :
    st' = st := by
  unfold lockInner at h
  by_cases hf : st.futex = 0
  · rw [if_pos hf] at h
    simp at h
  · rw [if_neg hf] at h
    obtain ⟨⟨r1, st1, evs1⟩, hrec, heq⟩ := Option.map_eq_some'.mp h
    simp only [Prod.mk.injEq] at heq
    obtain ⟨he1, hb, -⟩ := heq
    subst he1; subst hb
    exact lockPiLoop_error_state me sf st _ e _ evs1 hrec

/-! ## Claim theorems -/

/-- Claim C1 — refuted at the failing input (previous holder died, the kernel
set `OWNER_DIED` on the word).  Thread 7 acquires the abandoned mutex
(`futex = FUTEX_OWNER_DIED`): `SharedMutexInner::lock` goes through the
`lock_pi` slow path, clears the `OWNER_DIED` bit, and returns the **Ok**
guard variant — the "previous owner died" information is discarded rather
than conveyed as `Err(guard)`.  `SharedMutexInner::try_lock` escalates to
`lock_pi` and returns `Ok(Some(guard))` while leaving `OWNER_DIED` set in
the word (`0x40000007`), neither clearing the bit nor reporting `Err`. -/
theorem C1_owner_death_not_reported :
    sharedLock 7 ⟨⟨FUTEX_OWNER_DIED, 100, []⟩, true, 0⟩ [KOutcome.ok true false]
      = some (SharedLockRes.okGuard ⟨⟨7, 100, [100]⟩, true, 0⟩)
    ∧ sharedTryLock 7 ⟨⟨FUTEX_OWNER_DIED, 100, []⟩, true, 0⟩ (KOutcome.ok true false)
      = SharedTryRes.okSome ⟨⟨1073741831, 100, []⟩, true, 0⟩
    ∧ (1073741831 : Nat) &&& FUTEX_OWNER_DIED ≠ 0 := by
  decide

/-- Claim C3 — refuted on the guard path.  Releasing via the explicit
`PiMutex::unlock` (left conjunct) does unlink from the robust list first,
then CAS `tid → 0`, with no `unlock_pi` syscall when uncontended.  But
dropping the `PiMutexGuard` returned by `lock` (right conjunct) calls
`unlock_pi` directly: the robust-list node stays linked and no release CAS
is attempted, contradicting the claim that every release runs the
unlink-first sequence. -/
theorem C3_guard_drop_skips_robust_unlink :
    unlock 7 ⟨7, 100, [100]⟩ 0
      = (⟨0, 100, []⟩, [Ev.robustRemove 100, Ev.casRelease true])
    ∧ piMutexGuardDrop ⟨7, 100, [100]⟩ 0
      = (⟨0, 100, [100]⟩, [Ev.unlockPiCall]) := by
  decide

/-- Claim C4 — refuted on the `try_lock` paths.  Thread 7's `lock_try`
acquires via the CAS branch (first conjunct) and via the owner-died
escalation branch (second conjunct), and in both cases the futex word holds
tid 7 afterwards while the thread's robust list stays empty — no
`robust_add` is performed, violating the invariant that the owner's robust
list contains the node.  By contrast `lock_inner`'s fast path (third
conjunct) does add the node. -/
theorem C4_try_lock_omits_robust_add :
    lock_try 7 ⟨0, 100, []⟩ (KOutcome.ok false false)
      = (Except.ok (true, ⟨7, 100, []⟩), [Ev.casAcquire true])
    ∧ lock_try 7 ⟨FUTEX_OWNER_DIED, 100, []⟩ (KOutcome.ok true false)
      = (Except.ok (true, ⟨1073741831, 100, []⟩),
         [Ev.casAcquire false, Ev.lockPiCall])
    ∧ lockInner 7 true ⟨0, 100, []⟩ []
      = some (Except.ok (), ⟨7, 100, [100]⟩,
              [Ev.casAcquire true, Ev.robustAdd 100]) := by
  decide

/-- Claim C8 — refuted on the sentinel.  `ensure_registered` builds the head
with the claimed `futex_offset = offsetof(futex) − offsetof(next) = −8` and
null `list_op_pending`, and registration is once-per-thread; but the
self-pointer is taken while the head sits in the initializer closure's stack
frame (address 4096 here), and `OnceCell::get_or_init` then moves the value
to the cell (address 8192): the stored head's `list.next` — and the pointer
the kernel was registered with — still reference the dead stack slot, so
`list.next` does not point to the head itself. -/
theorem C8_head_sentinel_broken_by_move :
    ensure_registered futexOffsetValue 4096 8192
      = { kernelPtr := 4096, headAddr := 8192,
          head := { listNext := 4096, futexOffset := -8, listOpPending := 0 } }
    ∧ (ensure_registered futexOffsetValue 4096 8192).head.listNext
        ≠ (ensure_registered futexOffsetValue 4096 8192).headAddr
    ∧ (ensure_registered futexOffsetValue 4096 8192).kernelPtr
        ≠ (ensure_registered futexOffsetValue 4096 8192).headAddr
    ∧ ensure_registered_once
        (some (ensure_registered futexOffsetValue 4096 8192))
        futexOffsetValue 4096 8192
      = ensure_registered futexOffsetValue 4096 8192 := by
  decide

/-- Claim C9 — refuted.  `is_locked_by_me` masks the caller's tid but
compares it against the **full** futex word.  With tid 5 and the word
`5 ||| FUTEX_OWNER_DIED = 1073741829` (the caller holds a lock whose bit is
still set), the source predicate answers `false` while the specified
masked comparison answers `true`; they agree only when the advisory bits
are clear. -/
theorem C9_is_locked_by_me_compares_full_word :
    is_locked_by_me 5 1073741829 = false
    ∧ is_locked_by_me_spec 5 1073741829 = true
    ∧ (1073741829 : Nat) = 5 ||| FUTEX_OWNER_DIED
    ∧ is_locked_by_me 5 5 = true := by
  decide

/-- Claim C2 — confirmed.  `PiCondvar::wait_inner` first loads the generation
word, then releases the mutex (the consumed guard's drop), then suspends in
`FUTEX_WAIT_REQUEUE_PI` with the pre-release snapshot as expected value (the
trace begins `loadGen, unlockPiCall, waitRequeuePiCall` with matching
generation).  If the call returns success the kernel has requeued the caller
onto the mutex and handed it ownership, so the returned fresh guard
(`Except.ok`) comes with the caller's tid in the word's tid bits; on
`TimedOut` or `Interrupted` no guard is produced and the word still carries
whatever owner it acquired after the release (`arw`, whose tid bits are not
the caller's), so the caller does not hold the mutex. -/
theorem C2_wait_ownership :
    ∀ (me : Nat) (cv : CvState) (arw : Nat) (w : WOutcome)
      (r : Except IoErr Unit) (cv' : CvState) (evs : List Ev),
      me &&& FUTEX_TID_MASK = me →
      arw &&& FUTEX_TID_MASK ≠ me →
      wait_inner me cv arw w = (r, cv', evs) →
      (∃ rest, evs = [Ev.loadGen cv.gen, Ev.unlockPiCall,
                      Ev.waitRequeuePiCall cv.gen] ++ rest)
      ∧ (r = Except.ok () → cv'.m.futex &&& FUTEX_TID_MASK = me)
      ∧ ((r = Except.error IoErr.timedOut ∨ r = Except.error IoErr.interrupted) →
          cv'.m.futex &&& FUTEX_TID_MASK ≠ me) := by
  intro me cv arw w r cv' evs hme harw h
  cases w with
  | ok d wt =>
      unfold wait_inner at h
      simp only [Prod.mk.injEq] at h
      obtain ⟨h1, h2, h3⟩ := h
      refine ⟨⟨_, h3.symm⟩, ?_, ?_⟩
      · intro _
        rw [← h2]
        exact acquired_word_tid me d wt hme
      · intro hc
        rcases hc with hc | hc <;> rw [← h1] at hc <;> exact Except.noConfusion hc
  | err e =>
      unfold wait_inner at h
      simp only [Prod.mk.injEq] at h
      by_cases he1 : e = ETIMEDOUT
      · rw [if_pos he1] at h
        simp only [Prod.mk.injEq] at h
        obtain ⟨h1, h2, h3⟩ := h
        refine ⟨⟨[], by rw [← h3, List.append_nil]⟩, ?_, ?_⟩
        · intro hc; rw [← h1] at hc; exact Except.noConfusion hc
        · intro _; rw [← h2]; exact harw
      · rw [if_neg he1] at h
        by_cases he2 : e = EINTR
        · rw [if_pos he2] at h
          simp only [Prod.mk.injEq] at h
          obtain ⟨h1, h2, h3⟩ := h
          refine ⟨⟨[], by rw [← h3, List.append_nil]⟩, ?_, ?_⟩
          · intro hc; rw [← h1] at hc; exact Except.noConfusion hc
          · intro _; rw [← h2]; exact harw
        · rw [if_neg he2] at h
          simp only [Prod.mk.injEq] at h
          obtain ⟨h1, h2, h3⟩ := h
          refine ⟨⟨[], by rw [← h3, List.append_nil]⟩, ?_, ?_⟩
          · intro hc; rw [← h1] at hc; exact Except.noConfusion hc
          · intro _; rw [← h2]; exact harw

/-- Witness for C2: thread 7 waits (generation 5, previous owner died during
the wait); the successful return holds the mutex. -/
theorem C2_wait_ownership_witness :
    (wait_inner 7 ⟨5, ⟨7, 100, [100]⟩⟩ 0 (WOutcome.ok true false)).2.1.m.futex
        &&& FUTEX_TID_MASK = 7 :=
  (C2_wait_ownership 7 ⟨5, ⟨7, 100, [100]⟩⟩ 0 (WOutcome.ok true false)
      (wait_inner 7 ⟨5, ⟨7, 100, [100]⟩⟩ 0 (WOutcome.ok true false)).1
      (wait_inner 7 ⟨5, ⟨7, 100, [100]⟩⟩ 0 (WOutcome.ok true false)).2.1
      (wait_inner 7 ⟨5, ⟨7, 100, [100]⟩⟩ 0 (WOutcome.ok true false)).2.2
      (by decide) (by decide) rfl).2.1 (by decide)

/-- Claim C5 — confirmed.  The slow path's error policy: a `TimedOut` return
leaves the state exactly as at entry (no robust-list entry, futex word
untouched); when the oracle contains no `ETIMEDOUT` — the kernel's behaviour
whenever no timeout was passed — `TimedOut` is impossible; `EINTR` is
retried transparently when signal-fail semantics were not requested
(same result and state as if the `EINTR` had not occurred); with signal-fail
semantics `EINTR` surfaces as `Interrupted`; every other errno is surfaced
as an os error. -/
theorem C5_slow_path_error_policy :
    ∀ (me : Nat) (sf : Bool) (st : MState) (oracle : List KOutcome),
      (∀ (st' : MState) (evs : List Ev),
        lockInner me sf st oracle = some (Except.error IoErr.timedOut, st', evs) →
          st' = st)
      ∧ (KOutcome.err ETIMEDOUT ∉ oracle → ∀ (st' : MState) (evs : List Ev),
          lockInner me sf st oracle ≠ some (Except.error IoErr.timedOut, st', evs))
      ∧ (st.futex ≠ 0 → ∀ rest,
          lockResult (lockInner me false st (KOutcome.err EINTR :: rest))
            = lockResult (lockInner me false st rest))
      ∧ (st.futex ≠ 0 → ∀ rest,
          lockInner me true st (KOutcome.err EINTR :: rest)
            = some (Except.error IoErr.interrupted, st,
                    [Ev.casAcquire false, Ev.lockPiCall]))
      ∧ (∀ e rest, e ≠ EINTR → e ≠ ETIMEDOUT → st.futex ≠ 0 →
          lockInner me sf st (KOutcome.err e :: rest)
            = some (Except.error (IoErr.os e), st,
                    [Ev.casAcquire false, Ev.lockPiCall])) := by
  intro me sf st oracle
  refine ⟨?_, ?_, ?_, ?_, ?_⟩
  · intro st' evs h
    exact lockInner_error_state me sf st oracle _ st' evs h
  · intro hmem st' evs h
    unfold lockInner at h
    by_cases hf : st.futex = 0
    · rw [if_pos hf] at h; simp at h
    · rw [if_neg hf] at h
      obtain ⟨⟨r1, st1, evs1⟩, hrec, heq⟩ := Option.map_eq_some'.mp h
      simp only [Prod.mk.injEq] at heq
      obtain ⟨he1, hb, -⟩ := heq
      subst he1; subst hb
      exact lockPiLoop_no_timeout me sf st _ hmem _ evs1 hrec
  · intro hf rest
    unfold lockInner
    rw [if_neg hf, if_neg hf]
    have hstep : lockPiLoop me false st (KOutcome.err EINTR :: rest)
        = (lockPiLoop me false st rest).map
            (fun r => (r.1, r.2.1, Ev.lockPiCall :: r.2.2)) := by
      rw [lockPiLoop, if_pos ⟨rfl, by decide⟩]
    rw [hstep]
    cases hx : lockPiLoop me false st rest <;> simp [lockResult, hx]
  · intro hf rest
    unfold lockInner
    rw [if_neg hf]
    have hi : ioErrOfErrno EINTR = IoErr.interrupted := by decide
    have hstep : lockPiLoop me true st (KOutcome.err EINTR :: rest)
        = some (Except.error IoErr.interrupted, st, [Ev.lockPiCall]) := by
      rw [lockPiLoop, if_neg (by simp), if_neg (by decide), hi]
    rw [hstep]
    rfl
  · intro e rest h1 h2 hf
    unfold lockInner
    rw [if_neg hf]
    have hi : ioErrOfErrno e = IoErr.os e := by
      unfold ioErrOfErrno; rw [if_neg h1, if_neg h2]
    have hstep : lockPiLoop me sf st (KOutcome.err e :: rest)
        = some (Except.error (IoErr.os e), st, [Ev.lockPiCall]) := by
      rw [lockPiLoop, if_neg (by simp [h1]), if_neg h2, hi]
    rw [hstep]
    rfl

/-- Witness for C5: with signal-fail semantics, a single `EINTR` surfaces as
`Interrupted` with the state untouched. -/
theorem C5_slow_path_witness :
    lockInner 7 true ⟨5, 100, []⟩ [KOutcome.err EINTR]
      = some (Except.error IoErr.interrupted, ⟨5, 100, []⟩,
              [Ev.casAcquire false, Ev.lockPiCall]) :=
  (C5_slow_path_error_policy 7 true ⟨5, 100, []⟩ [KOutcome.err EINTR]).2.2.2.1
    (by decide) []

/-- Claim C6 — confirmed.  `lock_try` attempts the CAS from 0 to the caller's
tid; on a failed CAS with `OWNER_DIED` observed it escalates to `lock_pi`
and reports acquired; on a failed CAS without `OWNER_DIED` it reports
not-acquired — `PiMutex::try_lock` returns `Ok(None)` — with the futex word
unchanged. -/
theorem C6_try_lock_policy :
    ∀ (me : Nat) (st : MState) (k : KOutcome),
      (st.futex = 0 →
        lock_try me st k
          = (Except.ok (true, { st with futex := me }), [Ev.casAcquire true])
        ∧ try_lock me st k
          = (Except.ok (some { st with futex := me }), [Ev.casAcquire true]))
      ∧ (st.futex ≠ 0 → st.futex &&& FUTEX_OWNER_DIED ≠ 0 →
          ∀ d wt, k = KOutcome.ok d wt →
            lock_try me st k
              = (Except.ok (true, { st with futex := lockPiNewWord me d wt }),
                 [Ev.casAcquire false, Ev.lockPiCall]))
      ∧ (st.futex ≠ 0 → st.futex &&& FUTEX_OWNER_DIED = 0 →
          lock_try me st k = (Except.ok (false, st), [Ev.casAcquire false])
          ∧ try_lock me st k = (Except.ok none, [Ev.casAcquire false])) := by
  intro me st k
  refine ⟨?_, ?_, ?_⟩
  · intro hf
    constructor
    · simp [lock_try, hf]
    · simp [try_lock, lock_try, hf]
  · intro hf hod d wt hk
    subst hk
    simp [lock_try, hf, hod]
  · intro hf hod
    constructor
    · simp [lock_try, hf, hod]
    · simp [try_lock, lock_try, hf, hod]

/-- Witness for C6: a free mutex is acquired by the CAS branch. -/
theorem C6_try_lock_witness :
    lock_try 7 ⟨0, 100, []⟩ (KOutcome.err 13)
      = (Except.ok (true, ⟨7, 100, []⟩), [Ev.casAcquire true])
    ∧ try_lock 7 ⟨0, 100, []⟩ (KOutcome.err 13)
      = (Except.ok (some ⟨7, 100, []⟩), [Ev.casAcquire true]) :=
  (C6_try_lock_policy 7 ⟨0, 100, []⟩ (KOutcome.err 13)).1 rfl

/-- Claim C7 — confirmed.  `notify_one` and `notify_all` bump the generation
counter by exactly one (32-bit wrap) and call `cmp_requeue_pi` with
`wake_n = 1`, `requeue_n = 0` respectively `requeue_n = INT32_MAX`, passing
the post-increment generation as the expected value. -/
theorem C7_notify_protocol :
    ∀ gen : Nat,
      notify_one gen
        = ((gen + 1) % U32,
           { wakeN := 1, requeueN := 0, expected := (gen + 1) % U32 })
      ∧ notify_all gen
        = ((gen + 1) % U32,
           { wakeN := 1, requeueN := 2147483647, expected := (gen + 1) % U32 })
      ∧ (gen + 1 < U32 →
          (notify_one gen).1 = gen + 1 ∧ (notify_all gen).1 = gen + 1) := by
  intro gen
  refine ⟨rfl, rfl, fun h => ⟨?_, ?_⟩⟩ <;>
    simp [notify_one, notify_all, condWake, Nat.mod_eq_of_lt h]

/-- Witness for C7: the generation increments by exactly one below the wrap. -/
theorem C7_notify_witness :
    (notify_one 41).1 = 42 ∧ (notify_all 41).1 = 42 :=
  (C7_notify_protocol 41).2.2 (by decide)

/-- Claim C10 — confirmed.  Whenever `lock_inner` fails with any error
(any kernel errno, not only owner death), `SharedMutexInner::lock` still
returns the `Err(guard)` variant over an unchanged mutex state — the caller
never acquired the lock — and that guard both grants mutable access to the
payload and, on drop, runs the full unlock sequence (robust-list unlink,
release CAS — which fails since the word does not hold the caller's tid —
then `unlock_pi`).  Likewise `try_lock` maps a `lock_try` error to
`Err(guard)`. -/
theorem C10_err_guard_grants_access :
    ∀ (me : Nat) (s : SharedState) (oracle : List KOutcome) (e : IoErr)
      (st' : MState) (evs : List Ev),
      lockInner me true s.m oracle = some (Except.error e, st', evs) →
      sharedLock me s oracle = some (SharedLockRes.errGuard { s with m := st' })
      ∧ st' = s.m
      ∧ (∀ v, sharedGuardGet (sharedGuardSet { s with m := st' } v) = v)
      ∧ (∀ w, st'.futex ≠ me →
          sharedGuardDrop me { s with m := st' } w
            = ({ s with m := ⟨w, st'.node, st'.robust.erase st'.node⟩ },
               [Ev.robustRemove st'.node, Ev.casRelease false, Ev.unlockPiCall]))
      ∧ (∀ (k : KOutcome) (e2 : IoErr) (evs2 : List Ev),
          lock_try me s.m k = (Except.error e2, evs2) →
          sharedTryLock me s k = SharedTryRes.errGuard s) := by
  intro me s oracle e st' evs h
  refine ⟨?_, ?_, ?_, ?_, ?_⟩
  · unfold sharedLock
    rw [h]
  · exact lockInner_error_state me true s.m oracle e st' evs h
  · intro v; rfl
  · intro w hw
    simp [sharedGuardDrop, unlock, robust_remove, hw]
  · intro k e2 evs2 hlt
    unfold sharedTryLock
    rw [hlt]

/-- Witness for C10: a foreign-owned mutex (word 99) and a kernel failure
(errno 13) yield the `Err(guard)` variant with nothing acquired. -/
theorem C10_err_guard_witness :
    sharedLock 7 ⟨⟨99, 100, []⟩, true, 0⟩ [KOutcome.err 13]
      = some (SharedLockRes.errGuard ⟨⟨99, 100, []⟩, true, 0⟩) :=
  (C10_err_guard_grants_access 7 ⟨⟨99, 100, []⟩, true, 0⟩ [KOutcome.err 13]
      (IoErr.os 13) ⟨99, 100, []⟩ [Ev.casAcquire false, Ev.lockPiCall]
      (by decide)).1

end RobustSharedMutex
